import Mathlib

/-!
Verification of the adaptive bulk-indexing stream (`lib/BufferedBulkStream.js`).

The embedding below is a direct shallow translation of the source:
* `BufElem` models entries of `this.buffer` (an action descriptor, a document
  body, or the JavaScript `undefined` produced by an out-of-range slice);
* `BulkState` models the mutable instance state together with the accidentally
  global variable `writeBufferTotal` (assigned without `var` in `flush`) and the
  list of dispatched, not-yet-completed bulk requests;
* `parseChunk`, `writeChunk` (`_write`), `flush`, `batch`,
  `validateBulkResponse`, `completeCallback` (the `client.bulk` continuation)
  and `emitStats` mirror the correspondingly named functions of the source;
* `step`/`run` drive an arbitrary interleaving of submissions, forced flushes
  and asynchronous bulk-response completions.

`Math.random() > 0.9` in `batch` is modelled by an explicit boolean oracle, and
the inactivity timer surfaces as the ability to issue a forced flush at any
point of a trace.
-/

set_option autoImplicit false

namespace BufferedBulk

/-- An entry of the internal buffer: either an action descriptor
`{ index: { _index, _type, _id } }`, a document body (`record.data`,
abstracted to a tag), or JavaScript `undefined` (what `slice` yields on an
out-of-range index). -/
inductive BufElem where
  | action (idx typ id : Option String)
  | doc (data : Nat)
  | undef
deriving Repr, DecidableEq, Inhabited

/-- One entry of `resp.items`: the `index.status` code and the `index.error`
detail attached to it. -/
structure Item where
  status : Nat
  error : String
deriving Repr, DecidableEq, Inhabited

/-- The `this.stats` object of the stream. `error` is shared between intake
rejections (`this.stats['error']++` in `_write`) and bulk failures. -/
structure Stats where
  written : Nat
  inserted : Nat
  ok : Nat
  error : Nat
  active_requests : Int
  retries : Nat
deriving Repr, DecidableEq

/-- Whole-component state: the instance fields of `BufferedBulkStream`, the
accidentally global `writeBufferTotal`, and the dispatched batches whose
`client.bulk` callback has not run yet. `batchSize` is `options.buffer` and
`throttle` is `options.throttle` (mutated by `batch`). -/
structure BulkState where
  buffer : List BufElem
  flooding : Bool
  batchSize : Nat
  throttle : Int
  stats : Stats
  wbTotal : Nat
  inflight : List (List BufElem)
deriving Repr, DecidableEq

/-- An incoming chunk (already an object; the JSON-string path of `parseChunk`
decodes to this shape). Fields may be absent (`none`) or empty. -/
structure Chunk where
  _index : Option String
  _type : Option String
  _id : Option String
  data : Nat
deriving Repr, DecidableEq

/-- The stats snapshot emitted by `emitStats`. -/
structure Snapshot where
  written : Int
  indexed : Nat
  errored : Nat
  retries : Nat
  active_requests : Int
  queued : Int
deriving Repr, DecidableEq

/-- Observable events: plain string `error` emissions, batch-level
`IndexError`s (`record` argument `null`), per-item `IndexError`s (message,
offending document, raw item position), invocations of the global
`resumeFunction`, and `stats` emissions. -/
inductive Ev where
  | error (msg : String)
  | bulkError (msg : String)
  | indexError (msg : String) (doc : BufElem) (item : Nat)
  | resume
  | stats (snap : Snapshot)
deriving Repr, DecidableEq

/-- JavaScript falsiness of a string-valued field: absent or empty. -/
def falsy : Option String → Bool
  | none => true
  | some s => s = ""

/-- `parseChunk` on an object chunk: validate `_index`, `_type`, `_id` in that
order, emitting the corresponding error and returning nothing on the first
falsy field. -/
def parseChunk (c : Chunk) : Option Chunk × List Ev :=
  if falsy c._index then (none, [Ev.error "invalid index specified"])
  else if falsy c._type then (none, [Ev.error "invalid type specified"])
  else if falsy c._id then (none, [Ev.error "invalid id specified"])
  else (some c, [])

/-- `BufferedBulkStream.prototype.batch`: the flood controller's adaptive
step. `rand` models `Math.random() > 0.9`. -/
def batch (hasFailures rand : Bool) (throttle : Int) : Int :=
  if hasFailures then
    if throttle - 2 < 20 then 20 else throttle - 2
  else if rand then throttle + 1
  else throttle

/-- `emitStats`: note that the emitted `written` field is
`stats.written - stats.retries`, not the raw counter. -/
def emitStats (s : BulkState) : Snapshot :=
  { written := (s.stats.written : Int) - s.stats.retries
    indexed := s.stats.inserted
    errored := s.stats.error
    retries := s.stats.retries
    active_requests := s.stats.active_requests
    queued := (s.stats.written : Int) - s.stats.inserted - s.stats.error
                - s.stats.retries }

/-- `responseCodes[code].push(i)`: the positions (ascending, starting at `n`)
of the items whose status is `code`. -/
def idxsFrom (code : Nat) : Nat → List Item → List Nat
  | _, [] => []
  | n, it :: rest =>
      if it.status = code then n :: idxsFrom code (n + 1) rest
      else idxsFrom code (n + 1) rest

/-- Positions of the items carrying status `code`, in response order. -/
def idxs (code : Nat) (its : List Item) : List Nat := idxsFrom code 0 its

/-- Insert a code into an ascending list. -/
def insSorted (c : Nat) : List Nat → List Nat
  | [] => [c]
  | x :: xs => if c ≤ x then c :: x :: xs else x :: insSorted c xs

/-- The distinct status codes of a response in ascending order: JavaScript
iterates the integer-like keys of the `responseCodes` object ascending. -/
def sortedCodes (its : List Item) : List Nat :=
  its.foldl (fun acc it => if it.status ∈ acc then acc else insSorted it.status acc) []

/-- Whether any item carries status 503 (`hasFailures` in the source). -/
def hasF (its : List Item) : Bool := its.any (fun it => it.status = 503)

/-- The 503 branch: for each retry position, push
`writeBuffer.slice(2i, 2i+1)[0]` and `writeBuffer.slice(2i+1, 2i+2)[0]` back
onto the buffer and count a retry. -/
def retryPush (wb : List BufElem) (is : List Nat) (s : BulkState) : BulkState :=
  is.foldl
    (fun t i =>
      { t with
          buffer := t.buffer ++ [wb.getD (2 * i) .undef, wb.getD (2 * i + 1) .undef]
          stats := { t.stats with retries := t.stats.retries + 1 } })
    s

/-- Handling of one status-code group inside the `for (var code in
responseCodes)` loop of `validateBulkResponse`. -/
def processGroup (wb : List BufElem) (its : List Item) (s : BulkState) (code : Nat) :
    BulkState × List Ev :=
  if code = 200 then
    ({ s with stats := { s.stats with inserted := s.stats.inserted + (idxs 200 its).length } },
     [])
  else if code = 201 then
    ({ s with stats := { s.stats with inserted := s.stats.inserted + (idxs 201 its).length } },
     [])
  else if code = 503 then
    (retryPush wb (idxs 503 its) s, [])
  else if code = 400 then
    ({ s with stats := { s.stats with error := s.stats.error + (idxs 400 its).length } },
     (idxs 400 its).map (fun i =>
       Ev.indexError (its.getD i default).error (wb.getD (2 * i + 1) .undef) i))
  else
    ({ s with stats := { s.stats with error := s.stats.error + (idxs code its).length } },
     (idxs code its).map (fun i =>
       Ev.indexError "unknown response code" (wb.getD (2 * i + 1) .undef) i))

/-- `validateBulkResponse`: group item positions by status code, run the
adaptive throttle step with the 503 flag, then process each group. -/
def validateBulkResponse (wb : List BufElem) (its : List Item) (rand : Bool)
    (s : BulkState) : BulkState × List Ev :=
  let s0 := { s with throttle := batch (hasF its) rand s.throttle }
  (sortedCodes its).foldl
    (fun acc code =>
      let r := processGroup wb its acc.1 code
      (r.1, acc.2 ++ r.2))
    (s0, [])

/-- A completed backend call: a transport-level error, a response without an
`items` list, or a well-formed per-item result list. -/
inductive Resp where
  | transportErr
  | noItems
  | items (its : List Item)
deriving Repr, DecidableEq

/-- The continuation registered with `client.bulk`, from decrementing
`active_requests` to the final `emitStats`. The early `return`s on `err` and
on a missing `resp.items` skip both the flood-control resume check and the
stats emission, and both add the accidentally global `writeBufferTotal`
(`s.wbTotal`) to the error counter. -/
def completeCallback (writeBuffer : List BufElem) (resp : Resp) (rand : Bool)
    (s : BulkState) : BulkState × List Ev :=
  let s := { s with stats := { s.stats with active_requests := s.stats.active_requests - 1 } }
  match resp with
  | .transportErr =>
      ({ s with stats := { s.stats with error := s.stats.error + s.wbTotal } },
       [Ev.bulkError "bulk index error"])
  | .noItems =>
      ({ s with stats := { s.stats with error := s.stats.error + s.wbTotal } },
       [Ev.bulkError "invalid resp from es bulk index operation"])
  | .items its =>
      let r := validateBulkResponse writeBuffer its rand s
      let rr : BulkState × List Ev :=
        if r.1.stats.active_requests < r.1.throttle ∧ r.1.flooding then
          ({ r.1 with flooding := false }, [Ev.resume])
        else (r.1, [])
      (rr.1, r.2 ++ rr.2 ++ [Ev.stats (emitStats rr.1)])

/-- `flush`: guard against fewer than 2 buffered elements and against
non-forced flushes below the batch size, then splice off
`options.buffer * 2` elements, account for them, apply flood-control backoff,
dispatch, and emit a stats snapshot. -/
def flush (force : Bool) (s : BulkState) : BulkState × List Ev :=
  if s.buffer.length < 2 then (s, [])
  else if !force && s.buffer.length / 2 < s.batchSize then (s, [])
  else
    let writeBuffer := s.buffer.take (s.batchSize * 2)
    let total := writeBuffer.length / 2
    let s1 := { s with
        buffer := s.buffer.drop (s.batchSize * 2)
        wbTotal := total
        stats := { s.stats with
            written := s.stats.written + total
            active_requests := s.stats.active_requests + 1 } }
    let s2 := { s1 with
        flooding := if s1.stats.active_requests ≥ s1.throttle then true else s1.flooding
        inflight := s1.inflight ++ [writeBuffer] }
    (s2, [Ev.stats (emitStats s2)])

/-- `_write` on an object chunk: count intake `ok`/`error`, push the command
pair for a valid record, and attempt a non-forced flush. The inactivity-timer
rearm and the backpressure acknowledgement have no effect on the modelled
state. -/
def writeChunk (c : Chunk) (s : BulkState) : BulkState × List Ev :=
  let p := parseChunk c
  match p.1 with
  | some record =>
      let s := { s with
          stats := { s.stats with ok := s.stats.ok + 1 }
          buffer := s.buffer ++
            [BufElem.action record._index record._type record._id, BufElem.doc record.data] }
      let r := flush false s
      (r.1, p.2 ++ r.2)
  | none =>
      ({ s with stats := { s.stats with error := s.stats.error + 1 } }, p.2)

/-- External stimuli of the component: a submission, a (timer- or end-driven)
flush, or the completion of the `k`-th outstanding bulk request. -/
inductive Op where
  | write (c : Chunk)
  | flushOp (force : Bool)
  | complete (k : Nat) (resp : Resp) (rand : Bool)
deriving Repr, DecidableEq

/-- One step of the component. Completing an index that has no outstanding
request is a no-op. -/
def step (s : BulkState) (op : Op) : BulkState × List Ev :=
  match op with
  | .write c => writeChunk c s
  | .flushOp f => flush f s
  | .complete k resp rand =>
      match s.inflight[k]? with
      | none => (s, [])
      | some wb => completeCallback wb resp rand { s with inflight := s.inflight.eraseIdx k }

/-- Run a trace, accumulating emitted events. -/
def run (s : BulkState) (ops : List Op) : BulkState × List Ev :=
  ops.foldl (fun acc op => let r := step acc.1 op; (r.1, acc.2 ++ r.2)) (s, [])

/-- The state reached by a trace. -/
def runState (s : BulkState) : List Op → BulkState
  | [] => s
  | op :: ops => runState (step s op).1 ops

/-- Constructor state for given `options.buffer` and `options.throttle`. -/
def init (batchSize : Nat) (throttle : Int) : BulkState :=
  { buffer := []
    flooding := false
    batchSize := batchSize
    throttle := throttle
    stats := { written := 0, inserted := 0, ok := 0, error := 0
               active_requests := 0, retries := 0 }
    wbTotal := 0
    inflight := [] }

/-- Number of items of a response carrying status `code`. -/
def countEq (code : Nat) (its : List Item) : Nat :=
  (its.filter (fun it => it.status = code)).length

/-- Number of items classified as successful (status 200 or 201). -/
def countIns (its : List Item) : Nat :=
  (its.filter (fun it => it.status = 200 || it.status = 201)).length

/-- Number of items classified as retry-able (status 503). -/
def count503 (its : List Item) : Nat :=
  (its.filter (fun it => it.status = 503)).length

/-- Number of items classified as permanent failures (any other status). -/
def countErr (its : List Item) : Nat :=
  (its.filter (fun it =>
    !(it.status = 200 || it.status = 201 || it.status = 503))).length

/-- The command pairs re-admitted to the buffer for the 503 items, in
response order. -/
def retryPairs (wb : List BufElem) (its : List Item) : List BufElem :=
  (idxs 503 its).flatMap (fun i => [wb.getD (2 * i) .undef, wb.getD (2 * i + 1) .undef])

/-- Recognize a `resumeFunction` invocation among the events. -/
def isResume : Ev → Bool
  | .resume => true
  | _ => false

/-- Recognize a per-item `IndexError` emission. -/
def isItemErr : Ev → Bool
  | .indexError _ _ _ => true
  | _ => false

/-- How many times the producer's resume action was invoked. -/
def countResume (evs : List Ev) : Nat := (evs.filter isResume).length

/-- The `written` fields of the stats events among `evs`, in order. -/
def statsWrittens (evs : List Ev) : List Int :=
  evs.filterMap (fun e => match e with | .stats sn => some sn.written | _ => none)

/-- A chunk that passes intake validation. -/
def validChunk (c : Chunk) : Bool :=
  !falsy c._index && !falsy c._type && !falsy c._id

/-- Total pair count of the outstanding (dispatched, uncompleted) batches. -/
def pairsSum (l : List (List BufElem)) : Nat :=
  (l.map (fun wb => wb.length / 2)).sum

/-- A "well-behaved" stimulus: valid submissions, arbitrary flushes, and
completions that classify a well-formed response with exactly one item per
pair of the completed batch. -/
def goodOp (s : BulkState) : Op → Bool
  | .write c => validChunk c
  | .flushOp _ => true
  | .complete k resp _ =>
      match s.inflight[k]?, resp with
      | some wb, .items its => its.length == wb.length / 2
      | _, _ => false

/-- A trace of well-behaved stimuli from `s`. -/
def goodFrom (s : BulkState) : List Op → Bool
  | [] => true
  | op :: ops => goodOp s op && goodFrom (step s op).1 ops

/-- A valid record with payload `n`, for concrete traces. -/
def chunkA (n : Nat) : Chunk :=
  { _index := some "idx", _type := some "typ", _id := some "id", data := n }

/-- A record whose `_id` is missing, for concrete traces. -/
def chunkBad : Chunk :=
  { _index := some "idx", _type := some "typ", _id := none, data := 99 }

/-- Trace reaching a buffer of 3 pairs with `batch_size = 2`: two pairs are
flushed, one more is submitted, and the in-flight batch comes back all-503,
re-admitting its two pairs behind the buffered one. -/
def opsOverfull : List Op :=
  [.write (chunkA 1), .write (chunkA 2), .write (chunkA 3),
   .complete 0 (.items [⟨503, "e"⟩, ⟨503, "e"⟩]) false]

/-- Trace with two batches in flight under `batch_size = 3`: a full batch of
3 pairs is dispatched, then one more pair is force-flushed. -/
def opsTwoInflight : List Op :=
  [.write (chunkA 1), .write (chunkA 2), .write (chunkA 3), .write (chunkA 4),
   .flushOp true]

/-- `opsTwoInflight` followed by a transport-error completion of the first
(3-pair) batch. -/
def opsStaleTotal : List Op := opsTwoInflight ++ [.complete 0 .transportErr false]

/-- With `throttle = 1`: one dispatch trips flood control, then the request
completes with a transport error. -/
def opsFloodErr : List Op := [.write (chunkA 1), .complete 0 .transportErr false]

/-- One rejected record, then one cleanly indexed record. -/
def opsRejectThenOk : List Op :=
  [.write chunkBad, .write (chunkA 1), .complete 0 (.items [⟨201, ""⟩]) false]

/-- One record flushed, then classified as a 503. -/
def opsOne503 : List Op :=
  [.write (chunkA 1), .complete 0 (.items [⟨503, ""⟩]) false]

/-- A one-pair in-flight batch, for witnesses. -/
def wbOnePair : List BufElem :=
  [.action (some "idx") (some "typ") (some "id"), .doc 7]

/-- A single-item all-503 response, for witnesses. -/
def itsOne503 : List Item := [⟨503, "oops"⟩]

/-- A state holding two buffered pairs with `batch_size = 1`, for witnesses. -/
def stTwoPairs : BulkState := { init 1 20 with buffer := wbOnePair ++ wbOnePair }

/-- A single valid submission (auto-flushed under `batch_size = 1`). -/
def opsOneWrite : List Op := [.write (chunkA 1)]

/-! ### Helper lemmas about the response classifier -/

theorem countEq_cons (code : Nat) (it : Item) (rest : List Item) :
    countEq code (it :: rest) = countEq code rest + (if it.status = code then 1 else 0) := by
  simp only [countEq, List.filter_cons]
  split <;> rename_i h <;> simp at h <;> simp [h, Nat.add_comm]

theorem idxsFrom_length (code : Nat) :
    ∀ (its : List Item) (n : Nat), (idxsFrom code n its).length = countEq code its := by
  intro its
  induction its with
  | nil => intro n; simp [idxsFrom, countEq]
  | cons it rest ih =>
      intro n
      rw [countEq_cons]
      simp only [idxsFrom]
      split <;> simp [ih]

theorem idxs_length (code : Nat) (its : List Item) :
    (idxs code its).length = countEq code its :=
  idxsFrom_length code its 0

theorem retryPush_eq (wb : List BufElem) :
    ∀ (is : List Nat) (s : BulkState),
      retryPush wb is s =
        { s with
            buffer := s.buffer ++
              is.flatMap (fun i => [wb.getD (2 * i) .undef, wb.getD (2 * i + 1) .undef])
            stats := { s.stats with retries := s.stats.retries + is.length } } := by
  intro is
  induction is with
  | nil => intro s; simp [retryPush]
  | cons i rest ih =>
      intro s
      simp only [retryPush, List.foldl_cons] at *
      rw [ih]
      cases s with
      | mk buffer flooding batchSize throttle stats wbTotal inflight =>
          cases stats
          simp [List.append_assoc]
          omega

theorem processGroup_fst (wb : List BufElem) (its : List Item) (s : BulkState) (code : Nat) :
    (processGroup wb its s code).1 =
      { s with
          stats := { s.stats with
              inserted := s.stats.inserted +
                (if code = 200 ∨ code = 201 then countEq code its else 0)
              error := s.stats.error +
                (if code = 200 ∨ code = 201 ∨ code = 503 then 0 else countEq code its)
              retries := s.stats.retries + (if code = 503 then count503 its else 0) }
          buffer := s.buffer ++ (if code = 503 then retryPairs wb its else []) } := by
  have h503 : countEq 503 its = count503 its := by simp [countEq, count503]
  unfold processGroup
  by_cases h200 : code = 200
  · subst h200; simp [idxs_length]
  by_cases h201 : code = 201
  · subst h201; simp [idxs_length]
  by_cases h503c : code = 503
  · subst h503c
    rw [retryPush_eq]
    simp [retryPairs, idxs_length, h503, h200, h201]
  by_cases h400 : code = 400
  · subst h400; simp [idxs_length]
  · simp [h200, h201, h503c, h400, idxs_length]

theorem foldCodes_fst (wb : List BufElem) (its : List Item) :
    ∀ (cs : List Nat) (s : BulkState) (evs : List Ev),
      ((cs.foldl
          (fun acc code =>
            let r := processGroup wb its acc.1 code
            (r.1, acc.2 ++ r.2))
          (s, evs)).1 =
        { s with
            stats := { s.stats with
                inserted := s.stats.inserted +
                  ((cs.map (fun c => if c = 200 ∨ c = 201 then countEq c its else 0)).sum)
                error := s.stats.error +
                  ((cs.map (fun c =>
                    if c = 200 ∨ c = 201 ∨ c = 503 then 0 else countEq c its)).sum)
                retries := s.stats.retries +
                  ((cs.map (fun c => if c = 503 then count503 its else 0)).sum) }
            buffer := s.buffer ++
              (cs.flatMap (fun c => if c = 503 then retryPairs wb its else [])) }) := by
  intro cs
  induction cs with
  | nil => intro s evs; simp
  | cons c cs ih =>
      intro s evs
      simp only [List.foldl_cons]
      rw [ih]
      rw [processGroup_fst]
      cases s with
      | mk buffer flooding batchSize throttle stats wbTotal inflight =>
          cases stats
          simp [List.append_assoc]
          omega

theorem mem_insSorted (x c : Nat) :
    ∀ l : List Nat, x ∈ insSorted c l ↔ x = c ∨ x ∈ l := by
  intro l
  induction l with
  | nil => simp [insSorted]
  | cons y ys ih =>
      simp only [insSorted]
      split <;> simp [ih]
      tauto

theorem nodup_insSorted (c : Nat) :
    ∀ l : List Nat, l.Nodup → c ∉ l → (insSorted c l).Nodup := by
  intro l
  induction l with
  | nil => intro _ _; simp [insSorted]
  | cons y ys ih =>
      intro hn hc
      simp only [insSorted]
      simp only [List.nodup_cons] at hn
      split
      · exact List.nodup_cons.2 ⟨hc, List.nodup_cons.2 hn⟩
      · refine List.nodup_cons.2 ⟨?_, ih hn.2 (fun h => hc (List.mem_cons_of_mem y h))⟩
        rw [mem_insSorted]
        push_neg
        exact ⟨fun h => hc (h ▸ List.mem_cons_self y ys), hn.1⟩

theorem sortedCodes_nodup_aux :
    ∀ (its : List Item) (acc : List Nat), acc.Nodup →
      (its.foldl (fun a it => if it.status ∈ a then a else insSorted it.status a) acc).Nodup := by
  intro its
  induction its with
  | nil => intro acc h; simpa using h
  | cons it rest ih =>
      intro acc h
      simp only [List.foldl_cons]
      split
      · exact ih acc h
      · exact ih _ (nodup_insSorted _ _ h (by assumption))

theorem sortedCodes_nodup (its : List Item) : (sortedCodes its).Nodup :=
  sortedCodes_nodup_aux its [] (by simp)

theorem mem_foldl_codes_mono (x : Nat) :
    ∀ (its : List Item) (acc : List Nat), x ∈ acc →
      x ∈ its.foldl (fun a it => if it.status ∈ a then a else insSorted it.status a) acc := by
  intro its
  induction its with
  | nil => intro acc h; simpa using h
  | cons it rest ih =>
      intro acc h
      simp only [List.foldl_cons]
      split
      · exact ih acc h
      · exact ih _ ((mem_insSorted x it.status acc).2 (Or.inr h))

theorem status_mem_sortedCodes_aux :
    ∀ (its : List Item) (acc : List Nat) (it : Item), it ∈ its →
      it.status ∈ its.foldl (fun a i => if i.status ∈ a then a else insSorted i.status a) acc := by
  intro its
  induction its with
  | nil => intro acc it h; simp at h
  | cons hd rest ih =>
      intro acc it h
      simp only [List.foldl_cons]
      rcases List.mem_cons.1 h with h | h
      · subst h
        split
        · exact mem_foldl_codes_mono _ rest _ (by assumption)
        · exact mem_foldl_codes_mono _ rest _
            ((mem_insSorted it.status it.status acc).2 (Or.inl rfl))
      · exact ih _ it h

theorem status_mem_sortedCodes (its : List Item) (it : Item) (h : it ∈ its) :
    it.status ∈ sortedCodes its :=
  status_mem_sortedCodes_aux its [] it h

theorem countEq_eq_zero_of_not_mem_sortedCodes (its : List Item) (code : Nat)
    (h : code ∉ sortedCodes its) : countEq code its = 0 := by
  by_contra hne
  have hpos : 0 < (its.filter (fun it => it.status = code)).length := by
    simp only [countEq] at hne
    omega
  rw [List.length_pos] at hpos
  obtain ⟨it, hit⟩ := List.exists_mem_of_ne_nil _ hpos
  have := List.mem_filter.1 hit
  have hs : it.status = code := by simpa using this.2
  exact h (hs ▸ status_mem_sortedCodes its it this.1)

theorem sum_delta_zero (P : Nat → Prop) [DecidablePred P] (a : Nat) :
    ∀ cs : List Nat, a ∉ cs →
      ((cs.map (fun c => if P c then (if a = c then 1 else 0) else 0)).sum = 0) := by
  intro cs
  induction cs with
  | nil => simp
  | cons c rest ih =>
      intro h
      simp only [List.mem_cons, not_or] at h
      simp [ih h.2, h.1]

theorem sum_delta (P : Nat → Prop) [DecidablePred P] (a : Nat) :
    ∀ cs : List Nat, cs.Nodup → a ∈ cs →
      ((cs.map (fun c => if P c then (if a = c then 1 else 0) else 0)).sum =
        if P a then 1 else 0) := by
  intro cs
  induction cs with
  | nil => intro _ h; simp at h
  | cons c rest ih =>
      intro hn hm
      simp only [List.nodup_cons] at hn
      rcases List.mem_cons.1 hm with h | h
      · subst h
        simp [sum_delta_zero P a rest hn.1]
      · have hne : a ≠ c := fun hac => hn.1 (hac ▸ h)
        simp [ih hn.2 h, hne]

theorem sum_map_add_nat (f g : Nat → Nat) :
    ∀ l : List Nat, (l.map (fun c => f c + g c)).sum = (l.map f).sum + (l.map g).sum := by
  intro l
  induction l with
  | nil => simp
  | cons x xs ih => simp [ih]; omega

theorem sum_countEq (P : Nat → Prop) [DecidablePred P] (cs : List Nat) (hn : cs.Nodup) :
    ∀ its : List Item, (∀ it ∈ its, it.status ∈ cs) →
      ((cs.map (fun c => if P c then countEq c its else 0)).sum =
        (its.filter (fun it => decide (P it.status))).length) := by
  intro its
  induction its with
  | nil =>
      intro _
      rw [List.sum_eq_zero] <;> simp [countEq]
  | cons it rest ih =>
      intro hall
      have hrest : ∀ i ∈ rest, i.status ∈ cs := fun i hi => hall i (List.mem_cons_of_mem it hi)
      have hsplit :
          (cs.map (fun c => if P c then countEq c (it :: rest) else 0)) =
            (cs.map (fun c => (if P c then countEq c rest else 0) +
              (if P c then (if it.status = c then 1 else 0) else 0))) :=
        List.map_congr_left (fun c _ => by rw [countEq_cons]; split <;> simp)
      rw [hsplit, sum_map_add_nat, ih hrest,
        sum_delta P it.status cs hn (hall it (List.mem_cons_self it rest))]
      simp only [List.filter_cons]
      by_cases hp : P it.status
      · simp [hp]
      · simp [hp]

theorem sum_if_const (a : Nat) (v : Nat) :
    ∀ cs : List Nat, cs.Nodup →
      ((cs.map (fun c => if c = a then v else 0)).sum = if a ∈ cs then v else 0) := by
  intro cs
  induction cs with
  | nil => simp
  | cons c rest ih =>
      intro hn
      simp only [List.nodup_cons] at hn
      by_cases h : c = a
      · subst h
        have : (rest.map (fun c2 => if c2 = c then v else 0)).sum = 0 := by
          rw [List.sum_eq_zero]
          intro x hx
          simp only [List.mem_map] at hx
          obtain ⟨c2, hc2, hx⟩ := hx
          have : c2 ≠ c := fun hcc => hn.1 (hcc ▸ hc2)
          simp [← hx, this]
        simp [this]
      · have hne : a ≠ c := fun hac => h hac.symm
        simp [h, hne, ih hn.2]

theorem flatMap_if_single (a : Nat) (v : List BufElem) :
    ∀ cs : List Nat, cs.Nodup →
      (cs.flatMap (fun c => if c = a then v else [])) = if a ∈ cs then v else [] := by
  intro cs
  induction cs with
  | nil => simp
  | cons c rest ih =>
      intro hn
      simp only [List.nodup_cons] at hn
      by_cases h : c = a
      · subst h
        have : rest.flatMap (fun c2 => if c2 = c then v else []) = [] := by
          rw [List.flatMap_eq_nil_iff]
          intro c2 hc2
          have : c2 ≠ c := fun hcc => hn.1 (hcc ▸ hc2)
          simp [this]
        simp [this]
      · have hne : a ≠ c := fun hac => h hac.symm
        simp [h, hne, ih hn.2]

theorem count503_eq_countEq (its : List Item) : countEq 503 its = count503 its := rfl

theorem retryPairs_eq_nil_of_no503 (wb : List BufElem) (its : List Item)
    (h : countEq 503 its = 0) : retryPairs wb its = [] := by
  have hlen : (idxs 503 its).length = 0 := by rw [idxs_length, h]
  rw [List.length_eq_zero] at hlen
  simp [retryPairs, hlen]

/-- State effect of the response classifier: run the adaptive step with the
503 flag, credit the 200/201 items to `inserted`, the 503 items to `retries`
(re-admitting their command pairs at the buffer tail, in response order), and
everything else to `error`. -/
theorem validate_fst (wb : List BufElem) (its : List Item) (rand : Bool) (s : BulkState) :
    (validateBulkResponse wb its rand s).1 =
      { s with
          throttle := batch (hasF its) rand s.throttle
          stats := { s.stats with
              inserted := s.stats.inserted + countIns its
              error := s.stats.error + countErr its
              retries := s.stats.retries + count503 its }
          buffer := s.buffer ++ retryPairs wb its } := by
  unfold validateBulkResponse
  rw [foldCodes_fst]
  have hn := sortedCodes_nodup its
  have hall : ∀ it ∈ its, it.status ∈ sortedCodes its :=
    fun it h => status_mem_sortedCodes its it h
  have hins :
      ((sortedCodes its).map (fun c => if c = 200 ∨ c = 201 then countEq c its else 0)).sum =
        countIns its := by
    rw [sum_countEq (fun c => c = 200 ∨ c = 201) _ hn its hall]
    unfold countIns
    congr 1
    apply List.filter_congr
    intro it _
    simp
  have herr :
      ((sortedCodes its).map (fun c =>
          if c = 200 ∨ c = 201 ∨ c = 503 then 0 else countEq c its)).sum =
        countErr its := by
    have hconv :
        ((sortedCodes its).map (fun c =>
            if c = 200 ∨ c = 201 ∨ c = 503 then 0 else countEq c its)) =
          ((sortedCodes its).map (fun c =>
            if ¬(c = 200 ∨ c = 201 ∨ c = 503) then countEq c its else 0)) :=
      List.map_congr_left (fun c _ => by split <;> simp_all)
    rw [hconv, sum_countEq (fun c => ¬(c = 200 ∨ c = 201 ∨ c = 503)) _ hn its hall]
    unfold countErr
    congr 1
    apply List.filter_congr
    intro it _
    simp [Bool.and_assoc]
  have hret :
      ((sortedCodes its).map (fun c => if c = 503 then count503 its else 0)).sum =
        count503 its := by
    rw [sum_if_const 503 (count503 its) _ hn]
    split
    · rfl
    · rw [← count503_eq_countEq,
        countEq_eq_zero_of_not_mem_sortedCodes its 503 (by assumption)]
  have hbuf :
      ((sortedCodes its).flatMap (fun c => if c = 503 then retryPairs wb its else [])) =
        retryPairs wb its := by
    rw [flatMap_if_single 503 (retryPairs wb its) _ hn]
    split
    · rfl
    · rw [retryPairs_eq_nil_of_no503 wb its
        (countEq_eq_zero_of_not_mem_sortedCodes its 503 (by assumption))]
  rw [hins, herr, hret, hbuf]

/-- Every event emitted inside the classifier loop is a per-item
`IndexError`. -/
theorem validate_events (wb : List BufElem) (its : List Item) (rand : Bool) (s : BulkState) :
    ∀ e ∈ (validateBulkResponse wb its rand s).2, isItemErr e = true := by
  unfold validateBulkResponse
  have hgrp : ∀ (t : BulkState) (code : Nat),
      ∀ e ∈ (processGroup wb its t code).2, isItemErr e = true := by
    intro t code e he
    unfold processGroup at he
    split at he
    · simp at he
    · split at he
      · simp at he
      · split at he
        · simp at he
        · split at he <;>
            · simp only [List.mem_map] at he
              obtain ⟨i, _, hi⟩ := he
              simp [← hi, isItemErr]
  have haux : ∀ (cs : List Nat) (t : BulkState) (evs : List Ev),
      (∀ e ∈ evs, isItemErr e = true) →
      ∀ e ∈ ((cs.foldl
          (fun acc code =>
            let r := processGroup wb its acc.1 code
            (r.1, acc.2 ++ r.2))
          (t, evs)).2), isItemErr e = true := by
    intro cs
    induction cs with
    | nil => intro t evs h; simpa using h
    | cons c rest ih =>
        intro t evs h
        simp only [List.foldl_cons]
        apply ih
        intro e he
        rcases List.mem_append.1 he with he | he
        · exact h e he
        · exact hgrp t c e he
  exact haux (sortedCodes its) _ [] (by simp)

theorem statsWrittens_append (a b : List Ev) :
    statsWrittens (a ++ b) = statsWrittens a ++ statsWrittens b := by
  simp [statsWrittens]

theorem countResume_append (a b : List Ev) :
    countResume (a ++ b) = countResume a + countResume b := by
  simp [countResume]

theorem statsWrittens_validate (wb : List BufElem) (its : List Item) (rand : Bool)
    (s : BulkState) : statsWrittens (validateBulkResponse wb its rand s).2 = [] := by
  rw [statsWrittens, List.filterMap_eq_nil_iff]
  intro e he
  have := validate_events wb its rand s e he
  cases e <;> simp_all [isItemErr]

theorem countResume_validate (wb : List BufElem) (its : List Item) (rand : Bool)
    (s : BulkState) : countResume (validateBulkResponse wb its rand s).2 = 0 := by
  rw [countResume, List.length_eq_zero, List.filter_eq_nil_iff]
  intro e he
  have := validate_events wb its rand s e he
  cases e <;> simp_all [isItemErr, isResume]

/-- State effect of the `client.bulk` continuation on a well-formed response:
decrement `active_requests`, classify, and clear `flooding` (against the
already adjusted throttle) when the check fires. -/
theorem completeCallback_items_fst (wb : List BufElem) (its : List Item) (rand : Bool)
    (s : BulkState) :
    (completeCallback wb (.items its) rand s).1 =
      { s with
          throttle := batch (hasF its) rand s.throttle
          flooding :=
            if s.stats.active_requests - 1 < batch (hasF its) rand s.throttle ∧ s.flooding
            then false else s.flooding
          buffer := s.buffer ++ retryPairs wb its
          stats := { s.stats with
              active_requests := s.stats.active_requests - 1
              inserted := s.stats.inserted + countIns its
              error := s.stats.error + countErr its
              retries := s.stats.retries + count503 its } } := by
  unfold completeCallback
  simp only [validate_fst]
  split <;> rfl

theorem statsWrittens_completeCallback_items (wb : List BufElem) (its : List Item)
    (rand : Bool) (s : BulkState) :
    statsWrittens (completeCallback wb (.items its) rand s).2 =
      [(s.stats.written : Int) - s.stats.retries - count503 its] := by
  unfold completeCallback
  simp only
  split <;>
    · rw [statsWrittens_append, statsWrittens_append, statsWrittens_validate]
      simp [statsWrittens, validate_fst, emitStats]
      ring

theorem countResume_completeCallback_items (wb : List BufElem) (its : List Item)
    (rand : Bool) (s : BulkState) :
    countResume (completeCallback wb (.items its) rand s).2 =
      if s.stats.active_requests - 1 < batch (hasF its) rand s.throttle ∧ s.flooding
      then 1 else 0 := by
  unfold completeCallback
  simp only [validate_fst]
  split <;>
    · rw [countResume_append, countResume_append, countResume_validate]
      simp [countResume, isResume]

theorem flush_noop_small (force : Bool) (s : BulkState) (h : s.buffer.length < 2) :
    flush force s = (s, []) := by
  simp [flush, h]

theorem flush_noop_notfull (s : BulkState) (h : s.buffer.length / 2 < s.batchSize) :
    flush false s = (s, []) := by
  unfold flush
  split
  · rfl
  · simp [h]

/-- A flush is either a guarded no-op or an extraction of the
`batch_size * 2`-element prefix. -/
theorem flush_cases (force : Bool) (s : BulkState) :
    flush force s = (s, []) ∨
      ((flush force s).1.buffer = s.buffer.drop (s.batchSize * 2) ∧
       (flush force s).1.inflight = s.inflight ++ [s.buffer.take (s.batchSize * 2)] ∧
       (flush force s).1.stats.written =
         s.stats.written + (s.buffer.take (s.batchSize * 2)).length / 2 ∧
       (flush force s).1.stats.inserted = s.stats.inserted ∧
       (flush force s).1.stats.error = s.stats.error ∧
       (flush force s).1.stats.retries = s.stats.retries ∧
       (flush force s).1.batchSize = s.batchSize ∧
       2 ≤ s.buffer.length) := by
  unfold flush
  split <;> rename_i h1
  · exact Or.inl rfl
  · split
    · exact Or.inl rfl
    · refine Or.inr ?_
      simp
      omega

theorem parseChunk_valid (c : Chunk) (h : validChunk c = true) :
    parseChunk c = (some c, []) := by
  unfold validChunk at h
  simp only [Bool.and_eq_true, Bool.not_eq_true'] at h
  simp [parseChunk, h.1.1, h.1.2, h.2]

theorem writeChunk_valid (c : Chunk) (s : BulkState) (h : validChunk c = true) :
    writeChunk c s =
      flush false
        { s with
            stats := { s.stats with ok := s.stats.ok + 1 }
            buffer := s.buffer ++
              [BufElem.action c._index c._type c._id, BufElem.doc c.data] } := by
  unfold writeChunk
  rw [parseChunk_valid c h]
  simp

theorem run_fst_aux (ops : List Op) :
    ∀ acc : BulkState × List Ev,
      (ops.foldl (fun a op => let r := step a.1 op; (r.1, a.2 ++ r.2)) acc).1 =
        runState acc.1 ops := by
  induction ops with
  | nil => intro acc; simp [runState]
  | cons op rest ih => intro acc; simp only [List.foldl_cons, runState, ih]

theorem run_fst (s : BulkState) (ops : List Op) : (run s ops).1 = runState s ops :=
  run_fst_aux ops (s, [])

theorem runState_preserve (P : BulkState → Prop)
    (h : ∀ s op, P s → P (step s op).1) :
    ∀ (ops : List Op) (s : BulkState), P s → P (runState s ops) := by
  intro ops
  induction ops with
  | nil => intro s hs; exact hs
  | cons op rest ih => intro s hs; exact ih _ (h s op hs)

theorem runState_preserve_good (P : BulkState → Prop)
    (h : ∀ s op, goodOp s op = true → P s → P (step s op).1) :
    ∀ (ops : List Op) (s : BulkState), P s → goodFrom s ops = true →
      P (runState s ops) := by
  intro ops
  induction ops with
  | nil => intro s hs _; exact hs
  | cons op rest ih =>
      intro s hs hg
      simp only [goodFrom, Bool.and_eq_true] at hg
      exact ih _ (h s op hg.1 hs) hg.2

theorem retryPairs_length (wb : List BufElem) (its : List Item) :
    (retryPairs wb its).length = 2 * (idxs 503 its).length := by
  unfold retryPairs
  generalize idxs 503 its = l
  induction l with
  | nil => simp
  | cons i rest ih =>
      simp only [List.flatMap_cons, List.length_append, ih, List.length_cons]
      simp
      omega

theorem pairsSum_append (a b : List (List BufElem)) :
    pairsSum (a ++ b) = pairsSum a + pairsSum b := by
  simp [pairsSum]

theorem pairsSum_getElem_eraseIdx :
    ∀ (l : List (List BufElem)) (k : Nat) (x : List BufElem), l[k]? = some x →
      pairsSum l = x.length / 2 + pairsSum (l.eraseIdx k) := by
  intro l
  induction l with
  | nil => intro k x h; simp at h
  | cons y ys ih =>
      intro k x h
      cases k with
      | zero =>
          simp at h
          subst h
          simp [pairsSum, List.eraseIdx]
      | succ k =>
          simp at h
          have := ih k x h
          simp only [pairsSum, List.map_cons, List.sum_cons, List.eraseIdx] at *
          omega

theorem count_partition (its : List Item) :
    countIns its + countErr its + count503 its = its.length := by
  induction its with
  | nil => simp [countIns, countErr, count503]
  | cons it rest ih =>
      simp only [countIns, countErr, count503, List.filter_cons] at *
      by_cases h200 : it.status = 200
      · simp [h200] at *; omega
      · by_cases h201 : it.status = 201
        · simp [h201] at *; omega
        · by_cases h503 : it.status = 503
          · simp [h200, h201, h503] at *; omega
          · simp [h200, h201, h503] at *; omega

theorem mem_eraseIdx_mem :
    ∀ (l : List (List BufElem)) (k : Nat) (x : List BufElem),
      x ∈ l.eraseIdx k → x ∈ l := by
  intro l
  induction l with
  | nil => intro k x h; simp [List.eraseIdx] at h
  | cons y ys ih =>
      intro k x h
      cases k with
      | zero =>
          simp only [List.eraseIdx] at h
          exact List.mem_cons_of_mem y h
      | succ k =>
          simp only [List.eraseIdx] at h
          rcases List.mem_cons.1 h with h | h
          · exact h ▸ List.mem_cons_self y ys
          · exact List.mem_cons_of_mem y (ih k x h)

/-- The pair-structure invariant: the buffer holds an even number of elements
and every dispatched batch does too. -/
def EvenInv (s : BulkState) : Prop :=
  2 ∣ s.buffer.length ∧ ∀ wb ∈ s.inflight, 2 ∣ wb.length

theorem flush_even (f : Bool) (s : BulkState) (h : EvenInv s) : EvenInv (flush f s).1 := by
  rcases flush_cases f s with hc | hc
  · rw [hc]; exact h
  · constructor
    · rw [hc.1, List.length_drop]
      exact Nat.dvd_sub' h.1 (dvd_mul_left 2 s.batchSize)
    · intro wb hwb
      rw [hc.2.1] at hwb
      rcases List.mem_append.1 hwb with hwb | hwb
      · exact h.2 wb hwb
      · have : wb = s.buffer.take (s.batchSize * 2) := by simpa using hwb
        subst this
        rw [List.length_take]
        rcases Nat.le_total (s.batchSize * 2) s.buffer.length with hle | hle
        · rw [Nat.min_eq_left hle]; exact dvd_mul_left 2 s.batchSize
        · rw [Nat.min_eq_right hle]; exact h.1

theorem step_even (s : BulkState) (op : Op) (h : EvenInv s) : EvenInv (step s op).1 := by
  cases op with
  | write c =>
      show EvenInv (writeChunk c s).1
      unfold writeChunk
      cases hp : (parseChunk c).1 with
      | none => simp only [hp]; exact ⟨h.1, h.2⟩
      | some record =>
          simp only [hp]
          apply flush_even
          have h1 := h.1
          constructor
          · simp only [List.length_append, List.length_cons, List.length_nil]
            omega
          · exact h.2
  | flushOp f => exact flush_even f s h
  | complete k resp rand =>
      show EvenInv (step s (.complete k resp rand)).1
      unfold step
      cases hk : s.inflight[k]? with
      | none => simp only [hk]; exact ⟨h.1, h.2⟩
      | some wb =>
          simp only [hk]
          have hs' : EvenInv { s with inflight := s.inflight.eraseIdx k } :=
            ⟨h.1, fun w hw => h.2 w (mem_eraseIdx_mem _ k w hw)⟩
          cases resp with
          | transportErr => exact ⟨hs'.1, hs'.2⟩
          | noItems => exact ⟨hs'.1, hs'.2⟩
          | items its =>
              rw [completeCallback_items_fst]
              have h1 := hs'.1
              constructor
              · simp only [List.length_append, retryPairs_length]
                simp only [EvenInv] at h1
                omega
              · exact hs'.2

/-- The accounting invariant behind `queued ≥ 0`: every written pair is
either still in flight or already credited to exactly one of the outcome
counters. -/
def AcctInv (s : BulkState) : Prop :=
  s.stats.inserted + s.stats.error + s.stats.retries + pairsSum s.inflight =
    s.stats.written

theorem flush_acct (f : Bool) (s : BulkState) (h : AcctInv s) : AcctInv (flush f s).1 := by
  rcases flush_cases f s with hc | hc
  · rw [hc]; exact h
  · unfold AcctInv at *
    have hps : pairsSum (flush f s).1.inflight =
        pairsSum s.inflight + (s.buffer.take (s.batchSize * 2)).length / 2 := by
      rw [hc.2.1, pairsSum_append]
      simp [pairsSum]
    have h2 := hc.2.2.1
    have h3 := hc.2.2.2.1
    have h4 := hc.2.2.2.2.1
    have h5 := hc.2.2.2.2.2.1
    omega

theorem step_acct (s : BulkState) (op : Op) (hg : goodOp s op = true) (h : AcctInv s) :
    AcctInv (step s op).1 := by
  cases op with
  | write c =>
      show AcctInv (writeChunk c s).1
      rw [writeChunk_valid c s hg]
      exact flush_acct false _ h
  | flushOp f => exact flush_acct f s h
  | complete k resp rand =>
      show AcctInv (step s (.complete k resp rand)).1
      unfold step
      cases hk : s.inflight[k]? with
      | none => simp only [hk]; exact h
      | some wb =>
          simp only [hk]
          cases resp with
          | transportErr => simp [goodOp, hk] at hg
          | noItems => simp [goodOp, hk] at hg
          | items its =>
              have hlen : its.length = wb.length / 2 := by
                simp only [goodOp, hk, beq_iff_eq] at hg
                exact hg
              rw [completeCallback_items_fst]
              unfold AcctInv at *
              simp only
              have herase := pairsSum_getElem_eraseIdx s.inflight k wb hk
              have hcnt := count_partition its
              omega

theorem hasF_true_of_count503_pos (its : List Item) (h : 0 < count503 its) :
    hasF its = true := by
  unfold count503 at h
  obtain ⟨it, hit⟩ := List.exists_mem_of_length_pos h
  have hm := List.mem_filter.1 hit
  rw [hasF, List.any_eq_true]
  exact ⟨it, hm.1, hm.2⟩

theorem mem_idxsFrom_lt (c : Nat) :
    ∀ (its : List Item) (n i : Nat), i ∈ idxsFrom c n its → i < n + its.length := by
  intro its
  induction its with
  | nil => intro n i h; simp [idxsFrom] at h
  | cons it rest ih =>
      intro n i h
      simp only [idxsFrom] at h
      split at h
      · rcases List.mem_cons.1 h with h | h
        · subst h; simp
        · have := ih (n + 1) i h; simp; omega
      · have := ih (n + 1) i h; simp; omega

/-! ### Claim theorems -/

/-- C1: for every classified bulk response and every 503 item in it, the exact
original command pair (slots `2i` and `2i+1` of the in-flight batch, which are
in range) is re-appended at the buffer tail, the retried items keep their
original relative order (`retryPairs` walks `idxs 503 its`, which is
ascending), `retries` grows by one per 503 item, and the flood controller's
adjustment step runs with the has-failures flag set. -/
theorem retry_requeues_503_pairs (wb : List BufElem) (its : List Item) (rand : Bool)
    (s : BulkState) (h : 0 < count503 its) (hl : 2 * its.length ≤ wb.length) :
    (validateBulkResponse wb its rand s).1.buffer = s.buffer ++ retryPairs wb its ∧
    (∀ i ∈ idxs 503 its, 2 * i + 1 < wb.length) ∧
    (validateBulkResponse wb its rand s).1.stats.retries =
      s.stats.retries + count503 its ∧
    (validateBulkResponse wb its rand s).1.throttle = batch true rand s.throttle := by
  rw [validate_fst]
  refine ⟨rfl, ?_, rfl, ?_⟩
  · intro i hi
    have := mem_idxsFrom_lt 503 its 0 i hi
    omega
  · rw [hasF_true_of_count503_pos its h]

/-- C1 witness: a concrete one-pair batch whose single item returns 503. -/
theorem retry_requeues_503_pairs_w :
    (0 < count503 itsOne503 ∧ 2 * itsOne503.length ≤ wbOnePair.length) ∧
    ((validateBulkResponse wbOnePair itsOne503 false (init 1 20)).1.buffer =
        (init 1 20).buffer ++ retryPairs wbOnePair itsOne503 ∧
      (∀ i ∈ idxs 503 itsOne503, 2 * i + 1 < wbOnePair.length) ∧
      (validateBulkResponse wbOnePair itsOne503 false (init 1 20)).1.stats.retries =
        (init 1 20).stats.retries + count503 itsOne503 ∧
      (validateBulkResponse wbOnePair itsOne503 false (init 1 20)).1.throttle =
        batch true false (init 1 20).throttle) :=
  ⟨⟨by decide, by decide⟩,
    retry_requeues_503_pairs wbOnePair itsOne503 false (init 1 20) (by decide) (by decide)⟩

/-- C2: on a batch of 5 pairs with response statuses `[201,503,400,201,503]`,
`inserted` grows by exactly 2, `error` by exactly 1 with the single emitted
error event carrying item 2's document body, and `retries` by exactly 2 with
the two 503 pairs re-appended in original order (item 1's pair before
item 4's). -/
theorem scenario_five_statuses
    (a0 d0 a1 d1 a2 d2 a3 d3 a4 d4 : BufElem) (e0 e1 e2 e3 e4 : String)
    (rand : Bool) (s : BulkState) :
    (validateBulkResponse [a0, d0, a1, d1, a2, d2, a3, d3, a4, d4]
        [⟨201, e0⟩, ⟨503, e1⟩, ⟨400, e2⟩, ⟨201, e3⟩, ⟨503, e4⟩] rand s).1.stats.inserted =
      s.stats.inserted + 2 ∧
    (validateBulkResponse [a0, d0, a1, d1, a2, d2, a3, d3, a4, d4]
        [⟨201, e0⟩, ⟨503, e1⟩, ⟨400, e2⟩, ⟨201, e3⟩, ⟨503, e4⟩] rand s).1.stats.error =
      s.stats.error + 1 ∧
    (validateBulkResponse [a0, d0, a1, d1, a2, d2, a3, d3, a4, d4]
        [⟨201, e0⟩, ⟨503, e1⟩, ⟨400, e2⟩, ⟨201, e3⟩, ⟨503, e4⟩] rand s).2 =
      [Ev.indexError e2 d2 2] ∧
    (validateBulkResponse [a0, d0, a1, d1, a2, d2, a3, d3, a4, d4]
        [⟨201, e0⟩, ⟨503, e1⟩, ⟨400, e2⟩, ⟨201, e3⟩, ⟨503, e4⟩] rand s).1.stats.retries =
      s.stats.retries + 2 ∧
    (validateBulkResponse [a0, d0, a1, d1, a2, d2, a3, d3, a4, d4]
        [⟨201, e0⟩, ⟨503, e1⟩, ⟨400, e2⟩, ⟨201, e3⟩, ⟨503, e4⟩] rand s).1.buffer =
      s.buffer ++ [a1, d1, a4, d4] := by
  refine ⟨?_, ?_, ?_, ?_, ?_⟩ <;>
    simp [validateBulkResponse, sortedCodes, insSorted, processGroup, retryPush,
      idxs, idxsFrom, hasF, batch, List.append_assoc]

/-- C3 counterexample: a reachable state (batch_size 2) holds 3 buffered
pairs after a 503 re-admission; `flush(force=true)` splices off only
`batch_size` pairs and leaves 1 pair (2 elements) behind, so a forced flush
does not remove every buffered pair whenever the pair count is at least 1. -/
theorem forced_flush_leaves_excess :
    (runState (init 2 20) opsOverfull).buffer.length = 6 ∧
    (runState (init 2 20) (opsOverfull ++ [Op.flushOp true])).buffer.length = 2 :=
  ⟨rfl, rfl⟩

/-- C3 as amended: non-forced flushes below the batch size (and any flush of
a buffer under 2 elements) leave the state untouched; a forced flush of a
buffer with at least 2 elements extracts exactly the `batch_size * 2`-element
prefix — draining everything only when at most `batch_size` pairs are
buffered, and necessarily leaving a non-empty remainder otherwise. -/
theorem flush_contract (s : BulkState) :
    (s.buffer.length < 2 → flush true s = (s, []) ∧ flush false s = (s, [])) ∧
    (s.buffer.length / 2 < s.batchSize → flush false s = (s, [])) ∧
    (2 ≤ s.buffer.length →
      (flush true s).1.buffer = s.buffer.drop (s.batchSize * 2) ∧
      (flush true s).1.inflight = s.inflight ++ [s.buffer.take (s.batchSize * 2)] ∧
      (s.batchSize * 2 < s.buffer.length → (flush true s).1.buffer ≠ [])) := by
  refine ⟨fun h => ⟨flush_noop_small true s h, flush_noop_small false s h⟩,
    fun h => flush_noop_notfull s h, fun h2 => ?_⟩
  unfold flush
  rw [if_neg (by omega)]
  simp only [Bool.not_true, Bool.false_and, Bool.false_eq_true, if_false]
  refine ⟨by simp, by simp, fun hlt hnil => ?_⟩
  have : (List.drop (s.batchSize * 2) s.buffer).length = 0 := by
    simp only at hnil
    rw [hnil]
    rfl
  rw [List.length_drop] at this
  omega

/-- C3 witness: the no-op half at the empty initial state, and the
partial-drain half at a reachable-shape two-pair state with batch size 1. -/
theorem flush_contract_w :
    ((init 1 20).buffer.length < 2 ∧ flush true (init 1 20) = (init 1 20, [])) ∧
    (2 ≤ stTwoPairs.buffer.length ∧
      (flush true stTwoPairs).1.buffer = stTwoPairs.buffer.drop (stTwoPairs.batchSize * 2) ∧
      stTwoPairs.batchSize * 2 < stTwoPairs.buffer.length ∧
      (flush true stTwoPairs).1.buffer ≠ []) :=
  ⟨⟨by decide, ((flush_contract (init 1 20)).1 (by decide)).1⟩,
    ⟨by decide, ((flush_contract stTwoPairs).2.2 (by decide)).1, by decide,
      ((flush_contract stTwoPairs).2.2 (by decide)).2.2 (by decide)⟩⟩

/-- C4: evaluation at the failing input. With `batch_size = 3`, a 3-pair
batch and then a 1-pair batch are in flight (the accidentally global
`writeBufferTotal` now reads 1); when the 3-pair batch completes with a
transport error, `error` grows by 1 — not by the completed batch's pair
count 3 as the claim (and the code's intent) requires. -/
theorem transport_error_uses_stale_total :
    (runState (init 3 20) opsTwoInflight).inflight.map List.length = [6, 2] ∧
    (runState (init 3 20) opsTwoInflight).wbTotal = 1 ∧
    (runState (init 3 20) opsStaleTotal).stats.error = 1 :=
  ⟨rfl, rfl, rfl⟩

/-- C5 counterexample: with `throttle = 1` one dispatch sets `flooding`; the
request then completes with a transport error. `active_requests` (0) is below
the ceiling (1), yet the early `return` skips the resume check: `flooding`
stays set and the producer's resume action is never invoked. -/
theorem transport_error_skips_resume :
    (runState (init 1 1) opsFloodErr).flooding = true ∧
    (runState (init 1 1) opsFloodErr).stats.active_requests = 0 ∧
    (runState (init 1 1) opsFloodErr).throttle = 1 ∧
    countResume (run (init 1 1) opsFloodErr).2 = 0 :=
  ⟨rfl, rfl, rfl, rfl⟩

/-- C5 as amended: every completion decrements `active_requests` exactly
once; on well-formed responses the flood check runs against the adjusted
ceiling and resumes the producer exactly once per flooding-to-clear
transition; on transport-error or malformed-response completions the check
is skipped entirely, so `flooding` is left set and no resume happens. -/
theorem complete_decrement_and_resume (wb : List BufElem) (its : List Item)
    (rand : Bool) (s : BulkState) :
    (completeCallback wb (.items its) rand s).1.stats.active_requests =
      s.stats.active_requests - 1 ∧
    (completeCallback wb .transportErr rand s).1.stats.active_requests =
      s.stats.active_requests - 1 ∧
    (completeCallback wb .noItems rand s).1.stats.active_requests =
      s.stats.active_requests - 1 ∧
    (completeCallback wb (.items its) rand s).1.flooding =
      (if s.stats.active_requests - 1 < batch (hasF its) rand s.throttle ∧ s.flooding
       then false else s.flooding) ∧
    countResume (completeCallback wb (.items its) rand s).2 =
      (if s.stats.active_requests - 1 < batch (hasF its) rand s.throttle ∧ s.flooding
       then 1 else 0) ∧
    (completeCallback wb .transportErr rand s).1.flooding = s.flooding ∧
    countResume (completeCallback wb .transportErr rand s).2 = 0 ∧
    (completeCallback wb .noItems rand s).1.flooding = s.flooding ∧
    countResume (completeCallback wb .noItems rand s).2 = 0 := by
  refine ⟨?_, rfl, rfl, ?_, countResume_completeCallback_items wb its rand s,
    rfl, rfl, rfl, rfl⟩
  · rw [completeCallback_items_fst]
  · rw [completeCallback_items_fst]

/-- C6: the adaptive step never takes the ceiling below the floor of 20 when
it starts at or above it; an invocation with failures is exactly a
clamped-by-20 decrease of 2, and an invocation without failures never
decreases the ceiling. -/
theorem throttle_floor (steps : List (Bool × Bool)) (t : Int) (h : 20 ≤ t) :
    20 ≤ steps.foldl (fun a p => batch p.1 p.2 a) t ∧
    (∀ u : Int, ∀ r : Bool, batch true r u = max 20 (u - 2)) ∧
    (∀ u : Int, ∀ r : Bool, u ≤ batch false r u) := by
  have hstep : ∀ (u : Int) (f r : Bool), 20 ≤ u → 20 ≤ batch f r u := by
    intro u f r hu
    unfold batch
    split_ifs <;> omega
  refine ⟨?_, ?_, ?_⟩
  · induction steps generalizing t with
    | nil => exact h
    | cons p rest ih => exact ih _ (hstep t p.1 p.2 h)
  · intro u r
    simp only [batch, if_true]
    rw [max_def]
    split_ifs <;> omega
  · intro u r
    cases r <;> simp [batch]

/-- C6 witness: one failure step from ceiling 21 stays at the floor. -/
theorem throttle_floor_w :
    (20 : Int) ≤ 21 ∧
    (20 ≤ [((true : Bool), (false : Bool))].foldl (fun a p => batch p.1 p.2 a) 21 ∧
      (∀ u : Int, ∀ r : Bool, batch true r u = max 20 (u - 2)) ∧
      (∀ u : Int, ∀ r : Bool, u ≤ batch false r u)) :=
  ⟨by decide, throttle_floor [(true, false)] 21 (by decide)⟩

/-- C7 counterexample: one record rejected at intake (missing `_id`) and one
cleanly indexed record leave `written = inserted = error = 1`, because intake
rejections share the `error` counter with bulk failures; the snapshot's
`queued` is −1, violating `queued ≥ 0`. -/
theorem queued_negative_after_rejection :
    (emitStats (runState (init 1 20) opsRejectThenOk)).queued = -1 ∧
    ¬(0 ≤ (emitStats (runState (init 1 20) opsRejectThenOk)).queued) :=
  ⟨rfl, by decide⟩

/-- C7 as amended: along any trace whose submissions all pass validation and
whose completions each classify a well-formed response carrying exactly one
item per pair of the completed batch, the snapshot's
`queued = written − inserted − errored − retries` never goes negative. -/
theorem queued_nonneg_good_traces (bs : Nat) (th : Int) (ops : List Op)
    (h : goodFrom (init bs th) ops = true) :
    0 ≤ (emitStats (runState (init bs th) ops)).queued := by
  have hinv : AcctInv (runState (init bs th) ops) :=
    runState_preserve_good AcctInv step_acct ops (init bs th)
      (by simp [AcctInv, init, pairsSum]) h
  unfold AcctInv at hinv
  simp only [emitStats]
  omega

/-- C7 witness: a clean one-record trace whose response is a single 503. -/
theorem queued_nonneg_good_traces_w :
    goodFrom (init 1 20) opsOne503 = true ∧
    0 ≤ (emitStats (runState (init 1 20) opsOne503)).queued :=
  ⟨by decide, queued_nonneg_good_traces 1 20 opsOne503 (by decide)⟩

/-- C8: intake checks `_index`, `_type`, `_id` in that order and the first
falsy field wins; such a record changes neither the buffer nor the dispatched
batches nor `written`, and exactly one validation error is emitted, with a
distinct message per missing field. -/
theorem intake_validation_order (c : Chunk) (s : BulkState)
    (h : falsy c._index = true ∨ falsy c._type = true ∨ falsy c._id = true) :
    (writeChunk c s).1.buffer = s.buffer ∧
    (writeChunk c s).1.inflight = s.inflight ∧
    (writeChunk c s).1.stats.written = s.stats.written ∧
    (writeChunk c s).2 =
      [Ev.error (if falsy c._index then "invalid index specified"
        else if falsy c._type then "invalid type specified"
        else "invalid id specified")] ∧
    ("invalid index specified" ≠ "invalid type specified" ∧
      "invalid index specified" ≠ "invalid id specified" ∧
      "invalid type specified" ≠ "invalid id specified") := by
  unfold writeChunk parseChunk
  by_cases h1 : falsy c._index = true
  · simp [h1]
  · by_cases h2 : falsy c._type = true
    · simp [h1, h2]
    · have h3 : falsy c._id = true := by tauto
      simp [h1, h2, h3]

/-- C8 witness: a record with `_id` absent. -/
theorem intake_validation_order_w :
    (falsy chunkBad._index = true ∨ falsy chunkBad._type = true ∨
      falsy chunkBad._id = true) ∧
    ((writeChunk chunkBad (init 1 20)).1.buffer = (init 1 20).buffer ∧
      (writeChunk chunkBad (init 1 20)).1.inflight = (init 1 20).inflight ∧
      (writeChunk chunkBad (init 1 20)).1.stats.written = (init 1 20).stats.written ∧
      (writeChunk chunkBad (init 1 20)).2 =
        [Ev.error (if falsy chunkBad._index then "invalid index specified"
          else if falsy chunkBad._type then "invalid type specified"
          else "invalid id specified")] ∧
      ("invalid index specified" ≠ "invalid type specified" ∧
        "invalid index specified" ≠ "invalid id specified" ∧
        "invalid type specified" ≠ "invalid id specified")) :=
  ⟨by decide, intake_validation_order chunkBad (init 1 20) (by decide)⟩

/-- C9 counterexample: one flushed pair classified as 503 produces stats
events whose `written` fields are `[1, 0]` while the internal `written`
counter stays 1 — the emitted field neither equals the internal counter nor
is non-decreasing. -/
theorem stats_written_field_decreases :
    statsWrittens (run (init 1 20) opsOne503).2 = [1, 0] ∧
    (runState (init 1 20) opsOne503).stats.written = 1 ∧
    ¬((1 : Int) ≤ 0) :=
  ⟨rfl, rfl, by decide⟩

/-- C9 as amended: an emitted snapshot's `written` field is the internal
`written` counter minus the `retries` counter at emission time; classifying a
response leaves the internal counter unchanged while adding the 503 count to
`retries`, so the stats event it emits reports `written` lower by exactly the
number of retried items. -/
theorem stats_written_net_of_retries (wb : List BufElem) (its : List Item)
    (rand : Bool) (s : BulkState) :
    (emitStats s).written = (s.stats.written : Int) - s.stats.retries ∧
    statsWrittens (completeCallback wb (.items its) rand s).2 =
      [(s.stats.written : Int) - s.stats.retries - count503 its] ∧
    (completeCallback wb (.items its) rand s).1.stats.written = s.stats.written ∧
    (completeCallback wb (.items its) rand s).1.stats.retries =
      s.stats.retries + count503 its := by
  refine ⟨rfl, statsWrittens_completeCallback_items wb its rand s, ?_, ?_⟩
  · rw [completeCallback_items_fst]
  · rw [completeCallback_items_fst]

/-- C10: after any trace the buffer's element count is even, so the
fewer-than-2-elements flush guard fires only on an empty buffer, and every
dispatched batch likewise has an even element count — no half pair is ever
sent. -/
theorem buffer_always_paired (bs : Nat) (th : Int) (ops : List Op) :
    2 ∣ (runState (init bs th) ops).buffer.length ∧
    ((runState (init bs th) ops).buffer.length < 2 →
      (runState (init bs th) ops).buffer = []) ∧
    (∀ wb ∈ (runState (init bs th) ops).inflight, 2 ∣ wb.length) := by
  have hinv : EvenInv (runState (init bs th) ops) :=
    runState_preserve EvenInv step_even ops (init bs th) (by simp [EvenInv, init])
  refine ⟨hinv.1, fun hlt => ?_, hinv.2⟩
  have h1 := hinv.1
  have hlen : (runState (init bs th) ops).buffer.length = 0 := by omega
  exact List.length_eq_zero.mp hlen

/-- C10 witness: one submission auto-flushes, leaving an empty buffer and a
single two-element batch in flight. -/
theorem buffer_always_paired_w :
    (runState (init 1 20) opsOneWrite).buffer = [] ∧
    2 ∣ (BufElem.action (some "idx") (some "typ") (some "id") ::
      [BufElem.doc 1]).length :=
  ⟨(buffer_always_paired 1 20 opsOneWrite).2.1 (by decide),
    (buffer_always_paired 1 20 opsOneWrite).2.2 _ (by decide)⟩

end BufferedBulk
